import Mathlib

/-! docker-graylog-driver: the record mapper, the consumption loop and the session registry

A shallow embedding of `driver.go`.  Calls into libraries (the JSON parser, `net/url`,
`net`, `fifo`, `gelf`, `protoio`, `loggerutils`, `strconv`) are taken as parameters
(`World` for a session, `Host` for the registry); everything `driver.go` itself does
is translated line by line.  Effects on the outside world are recorded as traces of
events.

Layout: the data model and the functions of `driver.go`, example inputs, lemmas, and
then the properties of the record mapper, the consumption loop and the registry.
-/

namespace GraylogDriver

/-! ## Values -/

/-- JSON value, as `encoding/json` reads it from a document.  A number is kept as the
bit pattern of the `float64` the decoder stores for it. -/
inductive JSONValue where
  | null
  | bool (b : Bool)
  | number (bits : Nat)
  | string (s : String)
  | array (xs : List JSONValue)
  | object (kvs : List (String × JSONValue))

/-- Dynamic value held by a Go `interface{}`: the dynamic types that occur in
`driver.go` (`nil`, `bool`, `float64`, `string`, `[]interface{}`,
`map[string]interface{}` from the JSON decoder; `time.Time` and `string` in the
session metadata) and `int32`, the type `consumeLog` asserts for `level`. -/
inductive Any where
  | null
  | bool (b : Bool)
  | float64 (bits : Nat)
  | string (s : String)
  | slice (xs : List Any)
  | map (kvs : List (String × Any))
  | int32 (n : Int)
  | time (t : Int)

mutual
/-- What `json.Unmarshal` stores in an `interface{}` for a JSON value: `nil`, `bool`,
`float64`, `string`, `[]interface{}` or `map[string]interface{}`. -/
def JSONValue.toAny : JSONValue → Any
  | .null => .null
  | .bool b => .bool b
  | .number f => .float64 f
  | .string s => .string s
  | .array xs => .slice (toAnyList xs)
  | .object kvs => .map (toAnyFields kvs)
/-- Elementwise `JSONValue.toAny`. -/
def toAnyList : List JSONValue → List Any
  | [] => []
  | x :: xs => x.toAny :: toAnyList xs
/-- Memberwise `JSONValue.toAny`. -/
def toAnyFields : List (String × JSONValue) → List (String × Any)
  | [] => []
  | (k, v) :: kvs => (k, v.toAny) :: toAnyFields kvs
end

/-- Go `map[string]V`: a finite map with distinct keys.  `range` visits the entries in
the order of the underlying list, which is arbitrary. -/
abbrev GoMap (V : Type) := AList (fun _ : String => V)

/-- Type assertion `v.(string)`; `none` is `ok == false`. -/
def Any.assertString : Any → Option String
  | .string s => some s
  | _ => none

/-- Type assertion `v.(int32)`; `none` is `ok == false`. -/
def Any.assertInt32 : Any → Option Int
  | .int32 n => some n
  | _ => none

/-- Expression `data[key].(string)`: a missing key yields the nil interface, on which the
assertion fails. -/
def stringField (data : GoMap Any) (key : String) : Option String :=
  (data.lookup key).bind Any.assertString

/-- Expression `data[key].(int32)`. -/
def int32Field (data : GoMap Any) (key : String) : Option Int :=
  (data.lookup key).bind Any.assertInt32

/-- Map `json.Unmarshal` fills for a JSON object: every member is stored under its key,
a later member replacing an earlier one of the same key. -/
def objectToMap (members : List (String × JSONValue)) : GoMap Any :=
  members.foldl (fun m kv => m.insert kv.1 kv.2.toAny) ∅

/-! ## Messages and sessions -/

/-- Fields of `gelf.Message` that `driver.go` sets.  `TimeUnixMillis` is the integer
`buf.TimeNano/int64(time.Millisecond)`; the `float64` field `TimeUnix` is this number
divided by `1000.0`.  `Extra` is `none` for a nil map. -/
structure Message where
  Version : String
  Host : String
  Short : String
  TimeUnixMillis : Int
  Level : Int
  Extra : Option (GoMap Any)

/-- Entry `logdriver.LogEntry` read from the stream. -/
structure LogEntry where
  Source : String
  TimeNano : Int
  Line : List UInt8

/-- Compression types of `gelf`. -/
inductive CompressType where
  | gzip
  | zlib
  | none
deriving DecidableEq

/-- Fields of `gelf.Writer` that `driver.go` touches, with the address it was built for. -/
structure Writer where
  addr : String
  CompressionType : CompressType
  CompressionLevel : Int

/-- Fields of `logger.Info` that `driver.go` reads. -/
structure Info where
  Config : GoMap String
  ContainerID : String
  ContainerName : String
  ContainerImageID : String
  ContainerImageName : String
  ContainerEntrypoint : String
  ContainerArgs : List String
  ContainerCreated : Int

/-- Handle of an opened input stream. -/
abbrev Stream := Nat

/-- Session `dockerInput`.  `gelf` is a pointer: `none` is nil. -/
structure dockerInput where
  stream : Stream
  info : Info
  gelf : Option Writer
  hostname : String
  extra : GoMap Any

/-- Library behaviour seen by one session: the JSON parser (the value a payload holds,
`none` for a payload that is not a JSON text), the result of the `n`-th call of
`WriteMessage` (`none` is a nil error, `some e` has `err.Error() = e`), and the results
of the two `Close` calls. -/
structure World where
  parse : List UInt8 → Option JSONValue
  writeMessage : Nat → Message → Option String
  gelfClose : Option String
  streamClose : Option String

/-- Call `json.Unmarshal(buf.Line, &data)` on the fresh map `data` of line 164; `none` is
a non-nil error, `some data` the map afterwards.  A JSON object fills the map; JSON
`null` sets the map to nil (no entries) and is no error; any other JSON value is an
`UnmarshalTypeError`, and a payload that is not a JSON text a `SyntaxError`. -/
def unmarshal (w : World) (line : List UInt8) : Option (GoMap Any) :=
  match w.parse line with
  | some (.object members) => some (objectToMap members)
  | some .null => some ∅
  | _ => none

/-! ## The record mapper (body of the loop of `consumeLog`, lines 160-203) -/

/-- Result of mapping one record: `skip` is `continue`, `message m` is the value handed to
`WriteMessage`, `panic` is a run-time panic (index out of range). -/
inductive Outcome where
  | skip
  | message (m : Message)
  | panic

/-- Loop `for key, val := range lf.extra { extra[key] = val }`. -/
def copyExtra (src : GoMap Any) : GoMap Any :=
  AList.foldl (fun extra key val => extra.insert key val) ∅ src

/-- Loop `for key, val := range data { if key[0] == '_' { extra[key] = val } }` over the
entries still to visit.  `key[0]` panics on the empty string; `none` is that panic.
A Go string indexes bytes: `'_'` is ASCII, so the first byte is `'_'` exactly when the
first character is. -/
def mergeUnderscore : List (Sigma fun _ : String => Any) → GoMap Any → Option (GoMap Any)
  | [], extra => some extra
  | ⟨key, val⟩ :: rest, extra =>
    match key.data with
    | [] => none
    | c :: _ => if c = '_' then mergeUnderscore rest (extra.insert key val)
                else mergeUnderscore rest extra

/-- One pass of the loop body after the read, lines 160-203, up to the call of
`WriteMessage`.  The session is passed through: the body never assigns to it. -/
def mapRecord (w : World) (lf : dockerInput) (buf : LogEntry) : dockerInput × Outcome :=
  if buf.Line.length < 10 then (lf, .skip)
  else
    match unmarshal w buf.Line with
    | none => (lf, .skip)
    | some data =>
      let message := match stringField data "short_message" with
        | some msg => msg
        | none => "no message"
      let version := match stringField data "version" with
        | some ver => ver
        | none => "1.1"
      let level := match int32Field data "level" with
        | some lev => lev
        | none => 6
      let extra := copyExtra lf.extra
      match mergeUnderscore data.entries extra with
      | none => (lf, .panic)
      | some extra =>
        (lf, .message
          { Version := version
            Host := lf.hostname
            Short := message
            TimeUnixMillis := buf.TimeNano.tdiv 1000000
            Level := level
            Extra := some extra })

/-! ## The consumption loop -/

/-- Result of one `dec.ReadMsg(&buf)`: `eof` is `err == io.EOF`; `error buf` is any other
error, with the entry as the failed read left it; `ok buf` is a nil error. -/
inductive ReadResult where
  | eof
  | error (buf : LogEntry)
  | ok (buf : LogEntry)

/-- Call that `consumeLog` makes on the outside world. -/
inductive Event where
  | write (m : Message)
  | gelfClose
  | streamClose
  | decClose

/-- How a run of `consumeLog` ends: `eof` is the `return` of line 155, `panicked` a
run-time panic, `blocked` a loop waiting in `ReadMsg` once the given reads are used up. -/
inductive Exit where
  | eof
  | panicked
  | blocked
deriving DecidableEq

/-- Message of lines 135-140. -/
def startingMessage (lf : dockerInput) : Message :=
  { Version := "1.1", Host := lf.hostname, Short := "starting logging",
    TimeUnixMillis := 0, Level := 6, Extra := none }

/-- Message of lines 149-154; `fmt.Sprintf("FIFO Stream closed  %s", io.EOF)`. -/
def streamClosedMessage (lf : dockerInput) : Message :=
  { Version := "1.1", Host := lf.hostname, Short := "FIFO Stream closed  EOF",
    TimeUnixMillis := 0, Level := 3, Extra := none }

/-- Message of lines 204-209. -/
def sendFailedMessage (lf : dockerInput) (err : String) : Message :=
  { Version := "1.1", Host := lf.hostname, Short := "gelf send  " ++ err,
    TimeUnixMillis := 0, Level := 6, Extra := none }

/-- The `for` loop of `consumeLog` over the results of its successive reads; `n` counts the
calls of `WriteMessage` made so far.  After an error other than end-of-stream the
decoder is rebuilt and the body goes on with `buf` as it is (no `continue`). -/
def consumeLoop (w : World) (lf : dockerInput) : List ReadResult → Nat → List Event × Exit
  | [], _ => ([], .blocked)
  | .eof :: _, _ => ([.write (streamClosedMessage lf)], .eof)
  | .error buf :: rest, n | .ok buf :: rest, n =>
    match (mapRecord w lf buf).2 with
    | .skip => consumeLoop w lf rest n
    | .panic => ([], .panicked)
    | .message m =>
      match w.writeMessage n m with
      | none =>
        let r := consumeLoop w lf rest (n + 1)
        (.write m :: r.1, r.2)
      | some err =>
        let r := consumeLoop w lf rest (n + 2)
        (.write m :: .write (sendFailedMessage lf err) :: r.1, r.2)

/-- Method `dockerInput.Close`, lines 40-47: the calls it makes and the error it returns. -/
def dockerInput.Close (w : World) (_d : dockerInput) : List Event × Option String :=
  match w.gelfClose with
  | some err => ([.gelfClose], some err)
  | none => ([.gelfClose, .streamClose], w.streamClose)

/-- Run of `consumeLog`. -/
structure Run where
  trace : List Event
  exit : Exit

/-- Function `consumeLog` on the given read results.  A nil writer panics in the first
`WriteMessage`, before any `defer`.  When the function returns or panics in the loop
the deferred calls run, last registered first: `lf.Close()`, then `dec.Close()`. -/
def consumeLog (w : World) (lf : dockerInput) (reads : List ReadResult) : Run :=
  match lf.gelf with
  | none => { trace := [], exit := .panicked }
  | some _ =>
    let r := consumeLoop w lf reads 1
    match r.2 with
    | .blocked => { trace := .write (startingMessage lf) :: r.1, exit := .blocked }
    | e => { trace := .write (startingMessage lf) :: r.1 ++ (lf.Close w).1 ++ [.decClose],
             exit := e }

/-- Number of times the input stream's `Close` is reached in a trace.  `decCloses` says
whether the decoder's `Close` closes the reader it wraps (as
`protoio.NewUint32DelimitedReader`'s does for a reader that is an `io.Closer`). -/
def streamCloseCalls (decCloses : Bool) : List Event → Nat
  | [] => 0
  | .streamClose :: t => streamCloseCalls decCloses t + 1
  | .decClose :: t => streamCloseCalls decCloses t + (if decCloses then 1 else 0)
  | _ :: t => streamCloseCalls decCloses t

/-- Number of times the writer's `Close` is called in a trace. -/
def gelfCloseCalls : List Event → Nat
  | [] => 0
  | .gelfClose :: t => gelfCloseCalls t + 1
  | _ :: t => gelfCloseCalls t

/-- Recognises the "stream closed" diagnostic of lines 149-154 on this session's host. -/
def isStreamClosedWrite (lf : dockerInput) : Event → Bool
  | .write m => m.Short == "FIFO Stream closed  EOF" && m.Level == 3 && m.Version == "1.1"
      && m.Host == lf.hostname && m.Extra.isNone
  | _ => false

/-! ## The registry -/

/-- Fields of `url.URL` that `driver.go` reads. -/
structure URL where
  Scheme : String
  Host : String

/-- Errors `StartLogging` returns, one for each `return` with an error; `cause` is the text
of the wrapped library error. -/
inductive StartError where
  | alreadyExists (file : String)
  | openFifo (file : String) (cause : String)
  | addressRequired
  | notTransportURL (address : String)
  | urlParse (cause : String)
  | notUDP
  | hostPort
  | logTag (cause : String)
  | hostname
  | connect (address : String) (cause : String)
  | compressionType (v : String)
  | compressionLevel (v : String) (cause : String)
deriving DecidableEq

/-- Library and host calls made by `StartLogging`: `fifo.OpenFifo`,
`urlutil.IsTransportURL`, `url.Parse`, `net.SplitHostPort`, `loggerutils.ParseLogTag`,
`logCtx.Hostname`, `logCtx.Name`, `logCtx.Command`, `gelf.NewWriter` and
`strconv.Atoi`.  An `error` result carries the text of the error. -/
structure Host where
  openFifo : String → Except String Stream
  isTransportURL : String → Bool
  urlParse : String → Except String URL
  splitHostPort : String → Except String (String × String)
  parseLogTag : Info → Except String String
  hostname : Info → Except String String
  name : Info → String
  command : Info → String
  newWriter : String → Except String Writer
  atoi : String → Except String Int

/-- Function `parseAddress`, lines 220-243. -/
def parseAddress (h : Host) (address : String) : Except StartError URL :=
  if address = "" then .error .addressRequired
  else if !h.isTransportURL address then .error (.notTransportURL address)
  else
    match h.urlParse address with
    | .error err => .error (.urlParse err)
    | .ok url =>
      if url.Scheme ≠ "udp" then .error .notUDP
      else
        match h.splitHostPort url.Host with
        | .error _ => .error .hostPort
        | .ok _ => .ok url

/-- Effect of the registry on the outside world: `openFifo file f`, the fifo of `file` was
opened as stream `f`; `newWriter address`, a writer was built for `address`;
`closeStream f`, the `Close` of stream `f` was called; `printState lines`, the listing
was printed; `go lf`, `consumeLog(lf)` was started as a goroutine. -/
inductive SEvent where
  | openFifo (file : String) (f : Stream)
  | newWriter (address : String)
  | closeStream (f : Stream)
  | printState (lines : List (String × String))
  | go (lf : dockerInput)

/-- Function `newGELFUDPWriter`, lines 246-274, with the calls it makes. -/
def newGELFUDPWriter (h : Host) (address : String) (info : Info) :
    Except StartError Writer × List SEvent :=
  match h.newWriter address with
  | .error err => (.error (.connect address err), [])
  | .ok gelfWriter =>
    let withType : Except StartError Writer :=
      match info.Config.lookup "gelf-compression-type" with
      | none => .ok gelfWriter
      | some v =>
        if v = "gzip" then .ok { gelfWriter with CompressionType := .gzip }
        else if v = "zlib" then .ok { gelfWriter with CompressionType := .zlib }
        else if v = "none" then .ok { gelfWriter with CompressionType := .none }
        else .error (.compressionType v)
    match withType with
    | .error e => (.error e, [.newWriter address])
    | .ok gelfWriter =>
      match info.Config.lookup "gelf-compression-level" with
      | none => (.ok gelfWriter, [.newWriter address])
      | some v =>
        match h.atoi v with
        | .error err => (.error (.compressionLevel v err), [.newWriter address])
        | .ok val => (.ok { gelfWriter with CompressionLevel := val }, [.newWriter address])

/-- Registry `driver`; the mutex is left out, the calls are taken one at a time. -/
structure driver where
  logs : GoMap dockerInput

/-- Function `newDriver`. -/
def newDriver : driver := { logs := ∅ }

/-- Index expression `m[key]` on a `map[string]string`: the empty string for a missing key. -/
def configGet (m : GoMap String) (key : String) : String :=
  (m.lookup key).getD ""

/-- Metadata map of lines 99-107. -/
def sessionExtra (h : Host) (logCtx : Info) (tag : String) : GoMap Any :=
  AList.insert "_container_id" (.string logCtx.ContainerID) <|
  AList.insert "_container_name" (.string (h.name logCtx)) <|
  AList.insert "_image_id" (.string logCtx.ContainerImageID) <|
  AList.insert "_image_name" (.string logCtx.ContainerImageName) <|
  AList.insert "_command" (.string (h.command logCtx)) <|
  AList.insert "_tag" (.string tag) <|
  AList.insert "_created" (.time logCtx.ContainerCreated) ∅

/-- Lines printed by `PrintState`, in the order the map is ranged over. -/
def PrintState (d : driver) : List (String × String) :=
  d.logs.entries.map fun e => (e.1, e.2.info.ContainerID)

/-- Method `StartLogging`, lines 55-114: the error returned (`ok` is nil), the registry
afterwards, and the calls made. -/
def StartLogging (h : Host) (d : driver) (file : String) (logCtx : Info) :
    Except StartError Unit × driver × List SEvent :=
  if (d.logs.lookup file).isSome then (.error (.alreadyExists file), d, [])
  else
    match h.openFifo file with
    | .error err => (.error (.openFifo file err), d, [])
    | .ok f =>
      match parseAddress h (configGet logCtx.Config "gelf-address") with
      | .error err => (.error err, d, [.openFifo file f])
      | .ok graylogAddr =>
        match h.parseLogTag logCtx with
        | .error err => (.error (.logTag err), d, [.openFifo file f])
        | .ok tag =>
          match h.hostname logCtx with
          | .error _ => (.error .hostname, d, [.openFifo file f])
          | .ok hostname =>
            let built : Except StartError (Option Writer) × List SEvent :=
              if graylogAddr.Scheme = "udp" then
                match newGELFUDPWriter h graylogAddr.Host logCtx with
                | (.error err, ev) => (.error err, ev)
                | (.ok gelfWriter, ev) => (.ok (some gelfWriter), ev)
              else (.ok none, [])
            match built with
            | (.error err, ev) => (.error err, d, .openFifo file f :: ev)
            | (.ok gelfWriter, ev) =>
              let lf : dockerInput :=
                { stream := f
                  info := logCtx
                  gelf := gelfWriter
                  hostname := hostname
                  extra := sessionExtra h logCtx tag }
              let d' : driver := { logs := d.logs.insert file lf }
              (.ok (), d', .openFifo file f :: ev ++ [.printState (PrintState d'), .go lf])

/-- Method `StopLogging`, lines 123-132: the error returned (`none` is nil), the registry
afterwards, and the calls made. -/
def StopLogging (d : driver) (file : String) : Option StartError × driver × List SEvent :=
  match d.logs.lookup file with
  | some lf => (none, { logs := d.logs.erase file }, [.closeStream lf.stream])
  | none => (none, d, [])


/-! ## Predicates of the statements, and example inputs -/

/-- Keys that begin with the character `_`. -/
def beginsWithUnderscore (k : String) : Prop := k.data.head? = some '_'

instance (k : String) : Decidable (beginsWithUnderscore k) :=
  inferInstanceAs (Decidable (k.data.head? = some '_'))

/-- Bytes of a string (UTF-8). -/
def utf8 (s : String) : List UInt8 := s.toUTF8.data.toList

/-- Payload `{"short_message":"hello","level":3}`. -/
def helloPayload : List UInt8 := utf8 "\x7b\"short_message\":\"hello\",\"level\":3\x7d"

/-- Payload `{"":1,"a":22}`. -/
def emptyKeyPayload : List UInt8 := utf8 "\x7b\"\":1,\"a\":22\x7d"

/-- Payload `{"_tag":"custom"}`. -/
def tagPayload : List UInt8 := utf8 "\x7b\"_tag\":\"custom\"\x7d"

/-- Payload `[1,2,3,4,5,6]`: well-formed JSON, not an object. -/
def arrayPayload : List UInt8 := utf8 "[1,2,3,4,5,6]"

/-- Payload `null` followed by six spaces: the JSON text `null`, 10 bytes. -/
def nullPayload : List UInt8 := utf8 "null      "

/-- Members of `{"short_message":"hello","level":3}`; `0x4008000000000000` is the
`float64` 3. -/
def helloMembers : List (String × JSONValue) :=
  [("short_message", .string "hello"), ("level", .number 0x4008000000000000)]

/-- Members of `{"":1,"a":22}`; `0x3FF0000000000000` and `0x4036000000000000` are the
`float64`s 1 and 22. -/
def emptyKeyMembers : List (String × JSONValue) :=
  [("", .number 0x3FF0000000000000), ("a", .number 0x4036000000000000)]

/-- World in which the parser reads the example payloads as JSON does (everything else
is taken as not JSON), every send succeeds and both closes succeed. -/
def exampleWorld : World where
  parse := fun line =>
    if line = helloPayload then some (.object helloMembers)
    else if line = emptyKeyPayload then some (.object emptyKeyMembers)
    else if line = tagPayload then some (.object [("_tag", .string "custom")])
    else if line = arrayPayload then
      some (.array [.number 0x3FF0000000000000, .number 0x4000000000000000,
        .number 0x4008000000000000, .number 0x4010000000000000,
        .number 0x4014000000000000, .number 0x4018000000000000])
    else if line = nullPayload then some .null
    else none
  writeMessage := fun _ _ => none
  gelfClose := none
  streamClose := none

/-- Container of the examples. -/
def exampleInfo : Info where
  Config := AList.insert "gelf-address" "udp://127.0.0.1:9999" ∅
  ContainerID := "c1"
  ContainerName := "/web"
  ContainerImageID := "sha256:1"
  ContainerImageName := "nginx"
  ContainerEntrypoint := "nginx"
  ContainerArgs := []
  ContainerCreated := 0

/-- Session of the examples. -/
def exampleSession : dockerInput where
  stream := 3
  info := exampleInfo
  gelf := some { addr := "127.0.0.1:9999", CompressionType := .gzip, CompressionLevel := 1 }
  hostname := "host1"
  extra := AList.insert "_tag" (.string "web") (AList.insert "_container_id" (.string "c1") ∅)

/-- Record carrying `helloPayload`. -/
def helloEntry : LogEntry := { Source := "stdout", TimeNano := 1500000000, Line := helloPayload }

/-- Record carrying `emptyKeyPayload`. -/
def emptyKeyEntry : LogEntry := { Source := "stdout", TimeNano := 0, Line := emptyKeyPayload }

/-- Record carrying `tagPayload`. -/
def tagEntry : LogEntry := { Source := "stdout", TimeNano := 0, Line := tagPayload }

/-- Record carrying `nullPayload`. -/
def nullEntry : LogEntry := { Source := "stdout", TimeNano := 0, Line := nullPayload }

/-- Record carrying `arrayPayload`. -/
def arrayEntry : LogEntry := { Source := "stdout", TimeNano := 0, Line := arrayPayload }

/-- Events a run makes before the end-of-stream diagnostic: writes of level-6 messages. -/
def IsLevelSixWrite (e : Event) : Prop := ∃ m, e = .write m ∧ m.Level = 6

/-- World of the examples in which the writer's `Close` returns an error. -/
def failingCloseWorld : World :=
  { exampleWorld with gelfClose := some "use of closed network connection" }

/-- Host in which the library calls answer as Go's do on the addresses of the examples:
`udp://127.0.0.1:9999` and `tcp://127.0.0.1:9999` are transport URLs that parse,
`127.0.0.1:9999` splits into host and port, every fifo opens as stream 3, and a writer is
built for every address. -/
def exampleHost : Host where
  openFifo := fun _ => .ok 3
  isTransportURL := fun s => s = "udp://127.0.0.1:9999" || s = "tcp://127.0.0.1:9999"
  urlParse := fun s =>
    if s = "udp://127.0.0.1:9999" then .ok { Scheme := "udp", Host := "127.0.0.1:9999" }
    else if s = "tcp://127.0.0.1:9999" then .ok { Scheme := "tcp", Host := "127.0.0.1:9999" }
    else .error "parse error"
  splitHostPort := fun s =>
    if s = "127.0.0.1:9999" then .ok ("127.0.0.1", "9999")
    else .error "missing port in address"
  parseLogTag := fun info => .ok info.ContainerID
  hostname := fun _ => .ok "host1"
  name := fun _ => "web"
  command := fun _ => "nginx"
  newWriter := fun address => .ok { addr := address, CompressionType := .gzip, CompressionLevel := 1 }
  atoi := fun s => if s = "1" then .ok 1 else .error "invalid syntax"

/-- Container of the examples with no `gelf-address` option. -/
def noAddressInfo : Info := { exampleInfo with Config := ∅ }

/-- Container of the examples with a compression type that is not gzip, zlib or none. -/
def badCompressionInfo : Info :=
  { exampleInfo with
    Config := AList.insert "gelf-compression-type" "lz4" exampleInfo.Config }

/-- Registry holding the example session under `c1`. -/
def exampleDriver : driver := { logs := AList.insert "c1" exampleSession ∅ }

/-! ## Lemmas on the decoded map -/

theorem assertInt32_toAny (v : JSONValue) : v.toAny.assertInt32 = none := by
  cases v <;> simp [JSONValue.toAny, Any.assertInt32]

theorem assertString_toAny (v : JSONValue) (s : String) :
    v.toAny.assertString = some s ↔ v = .string s := by
  cases v <;> simp [JSONValue.toAny, Any.assertString]

theorem foldl_insert_json (members : List (String × JSONValue)) (acc : GoMap Any)
    (hacc : ∀ k a, acc.lookup k = some a → ∃ v : JSONValue, a = v.toAny) :
    ∀ k a, (members.foldl (fun m kv => m.insert kv.1 kv.2.toAny) acc).lookup k = some a →
      ∃ v : JSONValue, a = v.toAny := by
  induction members generalizing acc with
  | nil => simpa using hacc
  | cons kv rest ih =>
    simp only [List.foldl_cons]
    apply ih
    intro k a h
    by_cases hk : k = kv.1
    · subst hk
      rw [AList.lookup_insert] at h
      exact ⟨kv.2, (Option.some.inj h).symm⟩
    · rw [AList.lookup_insert_ne hk] at h
      exact hacc k a h

theorem objectToMap_json (members : List (String × JSONValue)) (k : String) (a : Any)
    (h : (objectToMap members).lookup k = some a) : ∃ v : JSONValue, a = v.toAny := by
  refine foldl_insert_json members ∅ ?_ k a h
  intro k a h
  simp at h

theorem unmarshal_object (w : World) (line : List UInt8) (members : List (String × JSONValue))
    (h : w.parse line = some (.object members)) :
    unmarshal w line = some (objectToMap members) := by
  simp [unmarshal, h]

theorem unmarshal_json (w : World) (line : List UInt8) (data : GoMap Any)
    (h : unmarshal w line = some data) (k : String) (a : Any)
    (hk : data.lookup k = some a) : ∃ v : JSONValue, a = v.toAny := by
  unfold unmarshal at h
  split at h
  · cases h
    exact objectToMap_json _ k a hk
  · cases h
    simp at hk
  · cases h

theorem int32Field_unmarshal (w : World) (line : List UInt8) (data : GoMap Any)
    (h : unmarshal w line = some data) (key : String) : int32Field data key = none := by
  unfold int32Field
  cases hk : data.lookup key with
  | none => rfl
  | some a =>
    obtain ⟨v, rfl⟩ := unmarshal_json w line data h key a hk
    simpa using assertInt32_toAny v

theorem unmarshal_eq_none_iff (w : World) (line : List UInt8) :
    unmarshal w line = none ↔
      w.parse line = none ∨
        ∃ v, w.parse line = some v ∧ v ≠ .null ∧ ∀ members, v ≠ .object members := by
  unfold unmarshal
  cases hp : w.parse line with
  | none => simp
  | some v => cases v <;> simp

/-! ## Lemmas on the two merge loops -/

theorem lookup_foldl_insert (es : List (Sigma fun _ : String => Any)) (hnd : es.NodupKeys)
    (acc : GoMap Any) (k : String) :
    (es.foldl (fun extra e => extra.insert e.1 e.2) acc).lookup k =
      match List.dlookup k es with
      | some v => some v
      | none => acc.lookup k := by
  induction es generalizing acc with
  | nil => simp
  | cons e rest ih =>
    obtain ⟨key, val⟩ := e
    obtain ⟨hnot, hrest⟩ := List.nodupKeys_cons.mp hnd
    simp only [List.foldl_cons]
    rw [ih hrest]
    by_cases hk : k = key
    · subst hk
      have hnone : List.dlookup k rest = none := List.dlookup_eq_none.mpr hnot
      rw [hnone]
      simp [AList.lookup_insert, List.dlookup_cons_eq]
    · rw [List.dlookup_cons_ne _ _ hk, AList.lookup_insert_ne hk]

theorem lookup_copyExtra (src : GoMap Any) (k : String) :
    (copyExtra src).lookup k = src.lookup k := by
  unfold copyExtra AList.foldl
  rw [lookup_foldl_insert src.entries src.nodupKeys ∅ k]
  show (match src.lookup k with | some v => some v | none => (∅ : GoMap Any).lookup k) = _
  cases src.lookup k <;> simp

theorem mergeUnderscore_none (es : List (Sigma fun _ : String => Any)) (acc : GoMap Any) :
    mergeUnderscore es acc = none ↔ "" ∈ es.keys := by
  induction es generalizing acc with
  | nil => simp [mergeUnderscore]
  | cons e rest ih =>
    obtain ⟨key, val⟩ := e
    cases hd : key.data with
    | nil =>
      have hkey : key = "" := String.ext hd
      subst hkey
      simp [mergeUnderscore]
    | cons c cs =>
      have hkey : "" ≠ key := by
        intro h
        rw [← h] at hd
        simp at hd
      unfold mergeUnderscore
      simp only [hd]
      split <;> simp [ih, hkey]

theorem mergeUnderscore_lookup (es : List (Sigma fun _ : String => Any)) (hnd : es.NodupKeys)
    (acc ex : GoMap Any) (h : mergeUnderscore es acc = some ex) (k : String) :
    ex.lookup k =
      match List.dlookup k es with
      | some v => if k.data.head? = some '_' then some v else acc.lookup k
      | none => acc.lookup k := by
  induction es generalizing acc with
  | nil =>
    simp [mergeUnderscore] at h
    subst h
    simp
  | cons e rest ih =>
    obtain ⟨key, val⟩ := e
    obtain ⟨hnot, hrest⟩ := List.nodupKeys_cons.mp hnd
    cases hd : key.data with
    | nil =>
      unfold mergeUnderscore at h
      simp [hd] at h
    | cons c cs =>
      unfold mergeUnderscore at h
      simp only [hd] at h
      by_cases hc : c = '_'
      · rw [if_pos hc] at h
        rw [ih hrest _ h]
        by_cases hk : k = key
        · subst hk
          have hnone : List.dlookup k rest = none := List.dlookup_eq_none.mpr hnot
          simp [hnone, AList.lookup_insert, List.dlookup_cons_eq, hd, hc]
        · rw [List.dlookup_cons_ne _ _ hk, AList.lookup_insert_ne hk]
      · rw [if_neg hc] at h
        rw [ih hrest _ h]
        by_cases hk : k = key
        · subst hk
          have hnone : List.dlookup k rest = none := List.dlookup_eq_none.mpr hnot
          simp [hnone, List.dlookup_cons_eq, hd, hc]
        · rw [List.dlookup_cons_ne _ _ hk]

/-! ## The record mapper -/

theorem stringField_eq_some (data : GoMap Any) (key s : String) :
    stringField data key = some s ↔ data.lookup key = some (.string s) := by
  unfold stringField
  cases h : data.lookup key with
  | none => simp
  | some a => cases a <;> simp [Any.assertString]

theorem mapRecord_decoded (w : World) (lf : dockerInput) (buf : LogEntry)
    (data : GoMap Any) (hlen : 10 ≤ buf.Line.length)
    (hun : unmarshal w buf.Line = some data) :
    mapRecord w lf buf =
      match mergeUnderscore data.entries (copyExtra lf.extra) with
      | none => (lf, .panic)
      | some extra =>
        (lf, .message
          { Version := (stringField data "version").getD "1.1"
            Host := lf.hostname
            Short := (stringField data "short_message").getD "no message"
            TimeUnixMillis := buf.TimeNano.tdiv 1000000
            Level := 6
            Extra := some extra }) := by
  have hlt : ¬ buf.Line.length < 10 := Nat.not_lt.mpr hlen
  unfold mapRecord
  simp only [hlt, if_false, hun, int32Field_unmarshal w buf.Line data hun]
  cases mergeUnderscore data.entries (copyExtra lf.extra) with
  | none => rfl
  | some extra =>
    cases stringField data "version" <;>
      cases stringField data "short_message" <;> rfl

theorem mapRecord_message_of_no_empty_key (w : World) (lf : dockerInput) (buf : LogEntry)
    (data : GoMap Any) (hlen : 10 ≤ buf.Line.length)
    (hun : unmarshal w buf.Line = some data) (hkeys : "" ∉ data) :
    ∃ m, (mapRecord w lf buf).2 = .message m := by
  rw [mapRecord_decoded w lf buf data hlen hun]
  cases h : mergeUnderscore data.entries (copyExtra lf.extra) with
  | none => exact absurd ((mergeUnderscore_none _ _).mp h) hkeys
  | some extra => exact ⟨_, rfl⟩

theorem mapRecord_session (w : World) (lf : dockerInput) (buf : LogEntry) :
    (mapRecord w lf buf).1 = lf := by
  unfold mapRecord
  split
  · rfl
  · split
    · rfl
    · dsimp only
      split <;> rfl

theorem getD_of_ne_some (o : Option String) (d : String) (h : ∀ s, o ≠ some s) :
    o.getD d = d := by
  cases o with
  | none => rfl
  | some s => exact absurd rfl (h s)

theorem mapRecord_fields (w : World) (lf : dockerInput) (buf : LogEntry)
    (data : GoMap Any) (hlen : 10 ≤ buf.Line.length)
    (hun : unmarshal w buf.Line = some data) (m : Message)
    (hm : (mapRecord w lf buf).2 = .message m) :
    m.Short = (stringField data "short_message").getD "no message" ∧
    m.Version = (stringField data "version").getD "1.1" ∧
    m.Level = 6 ∧ m.Host = lf.hostname ∧
    ∃ ex, m.Extra = some ex ∧
      mergeUnderscore data.entries (copyExtra lf.extra) = some ex := by
  rw [mapRecord_decoded w lf buf data hlen hun] at hm
  cases h : mergeUnderscore data.entries (copyExtra lf.extra) with
  | none => rw [h] at hm; cases hm
  | some extra =>
    rw [h] at hm
    injection hm with hm
    subst hm
    exact ⟨rfl, rfl, rfl, rfl, extra, rfl, rfl⟩

theorem merged_lookup (M D ex : GoMap Any)
    (h : mergeUnderscore D.entries (copyExtra M) = some ex) (k : String) :
    ex.lookup k =
      match D.lookup k with
      | some v => if k.data.head? = some '_' then some v else M.lookup k
      | none => M.lookup k := by
  rw [mergeUnderscore_lookup D.entries D.nodupKeys _ ex h k]
  show (match D.lookup k with
      | some v => if k.data.head? = some '_' then some v else (copyExtra M).lookup k
      | none => (copyExtra M).lookup k) = _
  rw [lookup_copyExtra]

theorem merged_spec (M D ex : GoMap Any)
    (h : mergeUnderscore D.entries (copyExtra M) = some ex) (k : String) :
    (k ∈ ex ↔ k ∈ M ∨ (k ∈ D ∧ beginsWithUnderscore k)) ∧
    (k ∈ D → beginsWithUnderscore k → ex.lookup k = D.lookup k) ∧
    (¬ (k ∈ D ∧ beginsWithUnderscore k) → ex.lookup k = M.lookup k) := by
  have hl := merged_lookup M D ex h k
  unfold beginsWithUnderscore
  cases hD : D.lookup k with
  | none =>
    have hnD : k ∉ D := AList.lookup_eq_none.mp hD
    rw [hD] at hl
    refine ⟨?_, fun hk => absurd hk hnD, fun _ => hl⟩
    rw [← AList.lookup_isSome, hl, AList.lookup_isSome]
    simp [hnD]
  | some v =>
    have hkD : k ∈ D := AList.lookup_isSome.mp (by rw [hD]; rfl)
    rw [hD] at hl
    dsimp only at hl
    by_cases hu : k.data.head? = some '_'
    · rw [if_pos hu] at hl
      refine ⟨?_, fun _ _ => hl, fun hn => absurd ⟨hkD, hu⟩ hn⟩
      have : k ∈ ex := AList.lookup_isSome.mp (by rw [hl]; rfl)
      simp [this, hkD, hu]
    · rw [if_neg hu] at hl
      refine ⟨?_, fun _ hb => absurd hb hu, fun _ => hl⟩
      rw [← AList.lookup_isSome, hl, AList.lookup_isSome]
      simp [hu]

theorem mapRecord_skip (w : World) (lf : dockerInput) (buf : LogEntry)
    (h : buf.Line.length < 10 ∨ unmarshal w buf.Line = none) :
    mapRecord w lf buf = (lf, .skip) := by
  unfold mapRecord
  rcases h with h | h
  · rw [if_pos h]
  · split
    · rfl
    · rw [h]

/-! ## Claims on the record mapper -/

/-- C1 (evaluation at the failing input): on the record `{"short_message":"hello","level":3}`
the consumption loop hands the writer a message with short text "hello" and version "1.1"
whose level is 6, not 3: the decoder stores the number 3 as a `float64`, so the
assertion `data["level"].(int32)` fails and the default is kept. -/
theorem level_three_is_sent_as_six :
    exampleWorld.parse helloEntry.Line = some (.object helloMembers) ∧
    (consumeLog exampleWorld exampleSession [.ok helloEntry, .eof]).trace =
      [ .write (startingMessage exampleSession),
        .write { Version := "1.1", Host := "host1", Short := "hello", TimeUnixMillis := 1500,
                 Level := 6, Extra := some (copyExtra exampleSession.extra) },
        .write (streamClosedMessage exampleSession),
        .gelfClose, .streamClose, .decClose ] :=
  ⟨rfl, rfl⟩

/-- C2: for a payload of at least 10 bytes that parses as a JSON object, every message
the mapper builds has as short text the string under `short_message`, or "no message"
when that key is absent or holds a non-string; as version the string under `version`,
or "1.1" otherwise; and level 6 (for every decoded record, so in particular when `level`
is absent or not an integer).  The mapper does build a message whenever no key of the
object is the empty string. -/
theorem message_fields_with_defaults (w : World) (lf : dockerInput) (buf : LogEntry)
    (members : List (String × JSONValue)) (hlen : 10 ≤ buf.Line.length)
    (hun : w.parse buf.Line = some (.object members)) :
    (∀ m, (mapRecord w lf buf).2 = .message m →
      (∀ s, (objectToMap members).lookup "short_message" = some (.string s) → m.Short = s) ∧
      ((∀ s, (objectToMap members).lookup "short_message" ≠ some (.string s)) →
        m.Short = "no message") ∧
      (∀ s, (objectToMap members).lookup "version" = some (.string s) → m.Version = s) ∧
      ((∀ s, (objectToMap members).lookup "version" ≠ some (.string s)) →
        m.Version = "1.1") ∧
      m.Level = 6) ∧
    ("" ∉ objectToMap members → ∃ m, (mapRecord w lf buf).2 = .message m) := by
  have hun' := unmarshal_object w buf.Line members hun
  refine ⟨?_, mapRecord_message_of_no_empty_key w lf buf _ hlen hun'⟩
  intro m hm
  obtain ⟨hs, hv, hl, -, -⟩ := mapRecord_fields w lf buf _ hlen hun' m hm
  refine ⟨?_, ?_, ?_, ?_, hl⟩
  · intro s h
    rw [hs, (stringField_eq_some _ _ _).mpr h]
    rfl
  · intro h
    rw [hs]
    exact getD_of_ne_some _ _ fun s hs' => h s ((stringField_eq_some _ _ _).mp hs')
  · intro s h
    rw [hv, (stringField_eq_some _ _ _).mpr h]
    rfl
  · intro h
    rw [hv]
    exact getD_of_ne_some _ _ fun s hs' => h s ((stringField_eq_some _ _ _).mp hs')

/-- Witness of C2 on the record `{"short_message":"hello","level":3}`. -/
theorem message_fields_with_defaults_witness :
    10 ≤ helloEntry.Line.length ∧
    exampleWorld.parse helloEntry.Line = some (.object helloMembers) ∧
    ∃ m, (mapRecord exampleWorld exampleSession helloEntry).2 = .message m ∧
      m.Short = "hello" ∧ m.Version = "1.1" ∧ m.Level = 6 := by
  have h := message_fields_with_defaults exampleWorld exampleSession helloEntry
    helloMembers (by decide) rfl
  obtain ⟨m, hm⟩ := h.2 (by decide)
  obtain ⟨h1, -, -, h4, h5⟩ := h.1 m hm
  exact ⟨by decide, rfl, m, hm, h1 "hello" rfl, h4 (fun s hs => by cases hs), h5⟩

/-- C3: for session metadata `M = lf.extra` and parsed record object `D`, the extra-fields
map of every message the mapper builds has exactly the keys of `M` together with the
keys of `D` that begin with `_`; an underscore key of `D` maps to `D`'s value, every
other key to `M`'s value; the session (and with it `M`) is unchanged.  The mapper does
build a message whenever no key of `D` is the empty string. -/
theorem extra_is_metadata_overridden_by_underscore_keys (w : World) (lf : dockerInput)
    (buf : LogEntry) (members : List (String × JSONValue)) (hlen : 10 ≤ buf.Line.length)
    (hun : w.parse buf.Line = some (.object members)) :
    (∀ m, (mapRecord w lf buf).2 = .message m →
      ∃ ex, m.Extra = some ex ∧ ∀ k : String,
        (k ∈ ex ↔ k ∈ lf.extra ∨ (k ∈ objectToMap members ∧ beginsWithUnderscore k)) ∧
        (k ∈ objectToMap members → beginsWithUnderscore k →
          ex.lookup k = (objectToMap members).lookup k) ∧
        (¬ (k ∈ objectToMap members ∧ beginsWithUnderscore k) →
          ex.lookup k = lf.extra.lookup k)) ∧
    (mapRecord w lf buf).1 = lf ∧
    ("" ∉ objectToMap members → ∃ m, (mapRecord w lf buf).2 = .message m) := by
  have hun' := unmarshal_object w buf.Line members hun
  refine ⟨?_, mapRecord_session w lf buf,
    mapRecord_message_of_no_empty_key w lf buf _ hlen hun'⟩
  intro m hm
  obtain ⟨-, -, -, -, ex, hex, hmerge⟩ := mapRecord_fields w lf buf _ hlen hun' m hm
  exact ⟨ex, hex, merged_spec lf.extra (objectToMap members) ex hmerge⟩

/-- Witness of C3 on the record `{"_tag":"custom"}`, whose `_tag` overrides the session's
`_tag`, while the session's `_container_id` is kept. -/
theorem extra_is_metadata_overridden_by_underscore_keys_witness :
    10 ≤ tagEntry.Line.length ∧
    exampleWorld.parse tagEntry.Line = some (.object [("_tag", .string "custom")]) ∧
    exampleSession.extra.lookup "_tag" = some (.string "web") ∧
    ∃ m ex, (mapRecord exampleWorld exampleSession tagEntry).2 = .message m ∧
      m.Extra = some ex ∧ ex.lookup "_tag" = some (.string "custom") ∧
      ex.lookup "_container_id" = some (.string "c1") ∧
      (mapRecord exampleWorld exampleSession tagEntry).1 = exampleSession := by
  have h := extra_is_metadata_overridden_by_underscore_keys exampleWorld exampleSession
    tagEntry [("_tag", .string "custom")] (by decide) rfl
  obtain ⟨m, hm⟩ := h.2.2 (by decide)
  obtain ⟨ex, hex, hk⟩ := h.1 m hm
  refine ⟨by decide, rfl, rfl, m, ex, hm, hex, ?_, ?_, h.2.1⟩
  · rw [(hk "_tag").2.1 (by decide) (by decide)]
    rfl
  · rw [(hk "_container_id").2.2 (by decide)]
    rfl

/-- C4 (counterexample): the 10-byte payload `null` followed by six spaces is JSON but not
a JSON object; `json.Unmarshal` stores null into the map without an error, so the record
is not skipped: the mapper builds a message with the default fields, which the loop
hands to the writer. -/
theorem null_payload_is_not_skipped :
    10 ≤ nullEntry.Line.length ∧
    exampleWorld.parse nullEntry.Line = some .null ∧
    (∀ members, JSONValue.null ≠ .object members) ∧
    (mapRecord exampleWorld exampleSession nullEntry).2 =
      .message { Version := "1.1", Host := "host1", Short := "no message", TimeUnixMillis := 0,
                 Level := 6, Extra := some (copyExtra exampleSession.extra) } ∧
    (consumeLog exampleWorld exampleSession [.ok nullEntry, .eof]).trace =
      [ .write (startingMessage exampleSession),
        .write { Version := "1.1", Host := "host1", Short := "no message", TimeUnixMillis := 0,
                 Level := 6, Extra := some (copyExtra exampleSession.extra) },
        .write (streamClosedMessage exampleSession),
        .gelfClose, .streamClose, .decClose ] := by
  refine ⟨by decide, rfl, ?_, rfl, rfl⟩
  intro members h
  cases h

/-- C4 (amended): a record whose payload is shorter than 10 bytes, or is not a JSON text,
or is a JSON value other than an object or null, makes the mapper `continue`: no
message, no panic, the session unchanged, and the loop (whether the read succeeded or
failed with a non-EOF error) goes on with the next read exactly as if the record had not
been there, so that nothing is written for it. -/
theorem short_or_unparsable_record_is_skipped (w : World) (lf : dockerInput) (buf : LogEntry)
    (h : buf.Line.length < 10 ∨ w.parse buf.Line = none ∨
      ∃ v, w.parse buf.Line = some v ∧ v ≠ .null ∧ ∀ members, v ≠ .object members) :
    mapRecord w lf buf = (lf, .skip) ∧
    (∀ rest n, consumeLoop w lf (.ok buf :: rest) n = consumeLoop w lf rest n) ∧
    (∀ rest n, consumeLoop w lf (.error buf :: rest) n = consumeLoop w lf rest n) ∧
    (∀ rest, consumeLog w lf (.ok buf :: rest) = consumeLog w lf rest) := by
  have hskip : mapRecord w lf buf = (lf, .skip) :=
    mapRecord_skip w lf buf (h.imp_right (unmarshal_eq_none_iff w buf.Line).mpr)
  have hok : ∀ rest n, consumeLoop w lf (.ok buf :: rest) n = consumeLoop w lf rest n := by
    intro rest n
    rw [consumeLoop, hskip]
  have herr : ∀ rest n, consumeLoop w lf (.error buf :: rest) n = consumeLoop w lf rest n := by
    intro rest n
    rw [consumeLoop, hskip]
  refine ⟨hskip, hok, herr, ?_⟩
  intro rest
  unfold consumeLog
  rw [hok]

/-- Witness of C4 (amended): the 13-byte payload `[1,2,3,4,5,6]` is a JSON array. -/
theorem short_or_unparsable_record_is_skipped_witness :
    (arrayEntry.Line.length < 10 ∨ exampleWorld.parse arrayEntry.Line = none ∨
      ∃ v, exampleWorld.parse arrayEntry.Line = some v ∧ v ≠ .null ∧
        ∀ members, v ≠ .object members) ∧
    mapRecord exampleWorld exampleSession arrayEntry = (exampleSession, .skip) ∧
    (consumeLog exampleWorld exampleSession [.ok arrayEntry, .eof]).trace =
      (consumeLog exampleWorld exampleSession [.eof]).trace := by
  have hyp : arrayEntry.Line.length < 10 ∨ exampleWorld.parse arrayEntry.Line = none ∨
      ∃ v, exampleWorld.parse arrayEntry.Line = some v ∧ v ≠ .null ∧
        ∀ members, v ≠ .object members := by
    refine Or.inr (Or.inr ⟨_, rfl, ?_, ?_⟩)
    · intro h
      cases h
    · intro members h
      cases h
  have h := short_or_unparsable_record_is_skipped exampleWorld exampleSession arrayEntry hyp
  exact ⟨hyp, h.1, by rw [h.2.2.2]⟩

/-- C10 (evaluation at the failing input): on the record `{"":1,"a":22}`, 13 bytes that
parse as an object with the empty string as a key, `key[0]` is out of range: the mapper
panics, no message is built for the record, and `consumeLog` ends in that panic after
its deferred closes, without reaching the next read. -/
theorem empty_key_panics :
    10 ≤ emptyKeyEntry.Line.length ∧
    exampleWorld.parse emptyKeyEntry.Line = some (.object emptyKeyMembers) ∧
    (mapRecord exampleWorld exampleSession emptyKeyEntry).2 = .panic ∧
    consumeLog exampleWorld exampleSession [.ok emptyKeyEntry, .ok helloEntry, .eof] =
      { trace := [.write (startingMessage exampleSession), .gelfClose, .streamClose, .decClose],
        exit := .panicked } :=
  ⟨by decide, rfl, rfl, rfl⟩

/-! ## The consumption loop -/

theorem mapRecord_level (w : World) (lf : dockerInput) (buf : LogEntry) (m : Message)
    (hm : (mapRecord w lf buf).2 = .message m) : m.Level = 6 := by
  by_cases hlen : buf.Line.length < 10
  · simp [mapRecord, hlen] at hm
  · cases hun : unmarshal w buf.Line with
    | none => simp [mapRecord, hlen, hun] at hm
    | some members =>
      exact (mapRecord_fields w lf buf members (Nat.not_lt.mp hlen) hun m hm).2.2.1

theorem consumeLoop_step (w : World) (lf : dockerInput) (buf : LogEntry)
    (rest : List ReadResult) (n : Nat) (hp : (mapRecord w lf buf).2 ≠ .panic) :
    ∃ pre k, (∀ e ∈ pre, IsLevelSixWrite e) ∧
      (∀ r, r = .ok buf ∨ r = .error buf →
        consumeLoop w lf (r :: rest) n =
          (pre ++ (consumeLoop w lf rest k).1, (consumeLoop w lf rest k).2)) := by
  cases hm : (mapRecord w lf buf).2 with
  | panic => exact absurd hm hp
  | skip =>
    refine ⟨[], n, by simp, ?_⟩
    rintro r (rfl | rfl) <;> simp [consumeLoop, hm]
  | message m =>
    have hl : m.Level = 6 := mapRecord_level w lf buf m hm
    cases hw : w.writeMessage n m with
    | none =>
      refine ⟨[.write m], n + 1, ?_, ?_⟩
      · intro e he
        simp at he
        exact ⟨m, he, hl⟩
      · rintro r (rfl | rfl) <;> simp [consumeLoop, hm, hw]
    | some err =>
      refine ⟨[.write m, .write (sendFailedMessage lf err)], n + 2, ?_, ?_⟩
      · intro e he
        simp at he
        rcases he with he | he
        · exact ⟨m, he, hl⟩
        · exact ⟨_, he, rfl⟩
      · rintro r (rfl | rfl) <;> simp [consumeLoop, hm, hw]

theorem consumeLoop_reaches_eof (w : World) (lf : dockerInput)
    (before after : List ReadResult)
    (hpre : ∀ r ∈ before, ∃ buf, (r = .ok buf ∨ r = .error buf) ∧
      (mapRecord w lf buf).2 ≠ .panic) (n : Nat) :
    ∃ pre, (∀ e ∈ pre, IsLevelSixWrite e) ∧
      consumeLoop w lf (before ++ .eof :: after) n =
        (pre ++ [.write (streamClosedMessage lf)], .eof) := by
  induction before generalizing n with
  | nil => exact ⟨[], by simp, by simp [consumeLoop]⟩
  | cons r rest ih =>
    obtain ⟨buf, hr, hp⟩ := hpre r (List.mem_cons_self _ _)
    obtain ⟨pre₁, k, hpre₁, hstep⟩ := consumeLoop_step w lf buf (rest ++ .eof :: after) n hp
    obtain ⟨pre₂, hpre₂, hrest⟩ := ih (fun r' hr' => hpre r' (List.mem_cons_of_mem _ hr')) k
    refine ⟨pre₁ ++ pre₂, ?_, ?_⟩
    · intro e he
      rcases List.mem_append.mp he with he | he
      · exact hpre₁ e he
      · exact hpre₂ e he
    · rw [List.cons_append, hstep r hr, hrest]
      simp

theorem countP_levelSix (lf : dockerInput) (pre : List Event)
    (hpre : ∀ e ∈ pre, IsLevelSixWrite e) : pre.countP (isStreamClosedWrite lf) = 0 := by
  rw [List.countP_eq_zero]
  intro e he
  obtain ⟨m, rfl, hl⟩ := hpre e he
  simp [isStreamClosedWrite, hl]

theorem streamCloseCalls_append (b : Bool) (s t : List Event) :
    streamCloseCalls b (s ++ t) = streamCloseCalls b s + streamCloseCalls b t := by
  induction s with
  | nil => simp [streamCloseCalls]
  | cons e s ih =>
    cases e <;> simp [streamCloseCalls, ih] <;> omega

theorem gelfCloseCalls_append (s t : List Event) :
    gelfCloseCalls (s ++ t) = gelfCloseCalls s + gelfCloseCalls t := by
  induction s with
  | nil => simp [gelfCloseCalls]
  | cons e s ih =>
    cases e <;> simp [gelfCloseCalls, ih]
    omega

theorem streamCloseCalls_writes (b : Bool) (pre : List Event)
    (hpre : ∀ e ∈ pre, ∃ m, e = .write m) : streamCloseCalls b pre = 0 := by
  induction pre with
  | nil => rfl
  | cons e s ih =>
    obtain ⟨m, rfl⟩ := hpre _ (List.mem_cons_self _ _)
    simpa [streamCloseCalls] using ih (fun e he => hpre e (List.mem_cons_of_mem _ he))

theorem gelfCloseCalls_writes (pre : List Event)
    (hpre : ∀ e ∈ pre, ∃ m, e = .write m) : gelfCloseCalls pre = 0 := by
  induction pre with
  | nil => rfl
  | cons e s ih =>
    obtain ⟨m, rfl⟩ := hpre _ (List.mem_cons_self _ _)
    simpa [gelfCloseCalls] using ih (fun e he => hpre e (List.mem_cons_of_mem _ he))

/-- C9 (counterexample): a session whose first read reports end-of-stream.  When the
writer's close succeeds the trace is start, "stream closed", writer close, stream close,
decoder close: with a decoder whose `Close` closes the reader it wraps, the stream's
`Close` is reached twice.  When the writer's close fails, `dockerInput.Close` returns
before closing the stream, and only the decoder's `Close` is left to do it.  In neither
reading of the decoder's `Close` is the stream closed exactly once whatever the writer's
close returns. -/
theorem stream_not_closed_exactly_once :
    (consumeLog exampleWorld exampleSession [.eof] =
      { trace := [ .write (startingMessage exampleSession),
                   .write (streamClosedMessage exampleSession),
                   .gelfClose, .streamClose, .decClose ],
        exit := .eof } ∧
      streamCloseCalls true (consumeLog exampleWorld exampleSession [.eof]).trace = 2) ∧
    (consumeLog failingCloseWorld exampleSession [.eof] =
      { trace := [ .write (startingMessage exampleSession),
                   .write (streamClosedMessage exampleSession),
                   .gelfClose, .decClose ],
        exit := .eof } ∧
      streamCloseCalls false (consumeLog failingCloseWorld exampleSession [.eof]).trace = 0) :=
  ⟨⟨rfl, rfl⟩, rfl, rfl⟩

/-- C9 (amended): for a session with a writer whose reads reach end-of-stream (no record
before it panics the mapper), `consumeLog` returns; its trace is the start message and
level-6 writes, then exactly one "stream closed" diagnostic (level 3, version "1.1"),
then the writer's `Close`, once and first, then the stream's `Close` from
`dockerInput.Close` only when the writer's close returned no error, then the decoder's
`Close`, last.  So the stream's `Close` is reached twice when the writer's close
succeeds and once when it fails (counting the decoder's `Close`, which closes the
stream it wraps). -/
theorem end_of_stream_teardown (w : World) (lf : dockerInput)
    (before after : List ReadResult) (hw : lf.gelf ≠ none)
    (hpre : ∀ r ∈ before, ∃ buf, (r = .ok buf ∨ r = .error buf) ∧
      (mapRecord w lf buf).2 ≠ .panic) :
    (consumeLog w lf (before ++ .eof :: after)).exit = .eof ∧
    (∃ pre, (∀ e ∈ pre, IsLevelSixWrite e) ∧
      (consumeLog w lf (before ++ .eof :: after)).trace =
        pre ++ [.write (streamClosedMessage lf), .gelfClose] ++
          (if w.gelfClose = none then [.streamClose] else []) ++ [.decClose]) ∧
    (streamClosedMessage lf).Level = 3 ∧ (streamClosedMessage lf).Version = "1.1" ∧
    (consumeLog w lf (before ++ .eof :: after)).trace.countP (isStreamClosedWrite lf) = 1 ∧
    gelfCloseCalls (consumeLog w lf (before ++ .eof :: after)).trace = 1 ∧
    streamCloseCalls true (consumeLog w lf (before ++ .eof :: after)).trace =
      (if w.gelfClose = none then 2 else 1) ∧
    streamCloseCalls false (consumeLog w lf (before ++ .eof :: after)).trace =
      (if w.gelfClose = none then 1 else 0) := by
  obtain ⟨pre, hpre6, hloop⟩ := consumeLoop_reaches_eof w lf before after hpre 1
  obtain ⟨wr, hwr⟩ := Option.ne_none_iff_exists'.mp hw
  have hstart : IsLevelSixWrite (.write (startingMessage lf)) := ⟨_, rfl, rfl⟩
  have hpre6' : ∀ e ∈ Event.write (startingMessage lf) :: pre, IsLevelSixWrite e := by
    intro e he
    rcases List.mem_cons.mp he with rfl | he
    · exact hstart
    · exact hpre6 e he
  have hwrites : ∀ e ∈ Event.write (startingMessage lf) :: pre, ∃ m, e = Event.write m :=
    fun e he => (hpre6' e he).imp fun _ h => h.1
  have htrace : (consumeLog w lf (before ++ .eof :: after)).trace =
      (Event.write (startingMessage lf) :: pre) ++
        [.write (streamClosedMessage lf), .gelfClose] ++
        (if w.gelfClose = none then [.streamClose] else []) ++ [.decClose] := by
    unfold consumeLog
    rw [hwr, hloop]
    cases hc : w.gelfClose <;> simp [dockerInput.Close, hc]
  have hexit : (consumeLog w lf (before ++ .eof :: after)).exit = .eof := by
    unfold consumeLog
    rw [hwr, hloop]
  refine ⟨hexit, ⟨_, hpre6', htrace⟩, rfl, rfl, ?_, ?_, ?_, ?_⟩
  · rw [htrace]
    simp only [List.countP_append, countP_levelSix lf _ hpre6']
    cases hc : w.gelfClose <;>
      simp [List.countP_cons, isStreamClosedWrite, streamClosedMessage]
  · rw [htrace]
    simp only [gelfCloseCalls_append, gelfCloseCalls_writes _ hwrites]
    cases hc : w.gelfClose <;> simp [gelfCloseCalls]
  · rw [htrace]
    simp only [streamCloseCalls_append, streamCloseCalls_writes _ _ hwrites]
    cases hc : w.gelfClose <;> simp [streamCloseCalls]
  · rw [htrace]
    simp only [streamCloseCalls_append, streamCloseCalls_writes _ _ hwrites]
    cases hc : w.gelfClose <;> simp [streamCloseCalls]

/-- Witness of C9 (amended): the reads `hello record, end-of-stream` of the example
session. -/
theorem end_of_stream_teardown_witness :
    exampleSession.gelf ≠ none ∧
    (∀ r ∈ [ReadResult.ok helloEntry], ∃ buf, (r = .ok buf ∨ r = .error buf) ∧
      (mapRecord exampleWorld exampleSession buf).2 ≠ .panic) ∧
    (consumeLog exampleWorld exampleSession ([.ok helloEntry] ++ .eof :: [])).exit = .eof ∧
    streamCloseCalls true
      (consumeLog exampleWorld exampleSession ([.ok helloEntry] ++ .eof :: [])).trace = 2 := by
  have hw : exampleSession.gelf ≠ none := by simp [exampleSession]
  have hpre : ∀ r ∈ [ReadResult.ok helloEntry], ∃ buf, (r = .ok buf ∨ r = .error buf) ∧
      (mapRecord exampleWorld exampleSession buf).2 ≠ .panic := by
    intro r hr
    rw [List.mem_singleton] at hr
    refine ⟨helloEntry, Or.inl hr, ?_⟩
    intro h
    have h' : (mapRecord exampleWorld exampleSession helloEntry).2 =
      .message { Version := "1.1", Host := "host1", Short := "hello", TimeUnixMillis := 1500,
                 Level := 6, Extra := some (copyExtra exampleSession.extra) } := rfl
    rw [h'] at h
    cases h
  have h := end_of_stream_teardown exampleWorld exampleSession [.ok helloEntry] [] hw hpre
  exact ⟨hw, hpre, h.1, h.2.2.2.2.2.2.1⟩

/-! ## The registry -/

theorem parseAddress_ok_iff (h : Host) (address : String) (u : URL) :
    parseAddress h address = .ok u ↔
      address ≠ "" ∧ h.isTransportURL address = true ∧ h.urlParse address = .ok u ∧
        u.Scheme = "udp" ∧ ∃ hp, h.splitHostPort u.Host = .ok hp := by
  by_cases h0 : address = ""
  · simp [parseAddress, h0]
  · by_cases h1 : h.isTransportURL address = true
    · cases h2 : h.urlParse address with
      | error e => simp [parseAddress, h0, h1, h2]
      | ok url =>
        by_cases h3 : url.Scheme = "udp"
        · cases h4 : h.splitHostPort url.Host with
          | error e =>
            have hval : parseAddress h address = .error .hostPort := by
              simp [parseAddress, h0, h1, h2, h3, h4]
            rw [hval]
            constructor
            · intro hc
              cases hc
            · rintro ⟨-, -, hu, -, hp, hhp⟩
              cases hu
              rw [h4] at hhp
              cases hhp
          | ok hp =>
            have hval : parseAddress h address = .ok url := by
              simp [parseAddress, h0, h1, h2, h3, h4]
            rw [hval]
            constructor
            · intro hc
              cases hc
              exact ⟨h0, h1, rfl, h3, hp, h4⟩
            · rintro ⟨-, -, hu, -, -⟩
              cases hu
              rfl
        · have hval : parseAddress h address = .error .notUDP := by
            simp [parseAddress, h0, h1, h2, h3]
          rw [hval]
          constructor
          · intro hc
            cases hc
          · rintro ⟨-, -, hu, hs, -⟩
            cases hu
            exact absurd hs h3
    · simp [parseAddress, h0, h1]

theorem parseAddress_error_of_not_ok (h : Host) (address : String)
    (hn : ∀ u, parseAddress h address ≠ .ok u) : ∃ e, parseAddress h address = .error e := by
  cases hp : parseAddress h address with
  | error e => exact ⟨e, rfl⟩
  | ok u => exact absurd hp (hn u)

theorem StartLogging_parseAddress_error (h : Host) (d : driver) (file : String)
    (logCtx : Info) (f : Stream) (e : StartError) (hnew : file ∉ d.logs)
    (hopen : h.openFifo file = .ok f)
    (hp : parseAddress h (configGet logCtx.Config "gelf-address") = .error e) :
    StartLogging h d file logCtx = (.error e, d, [.openFifo file f]) := by
  have hl : (d.logs.lookup file).isSome = false := by
    rw [Bool.eq_false_iff, ne_eq, AList.lookup_isSome]
    exact hnew
  unfold StartLogging
  simp only [hl, Bool.false_eq_true, if_false, hopen, hp]

/-- C5: `parseAddress` returns a URL exactly when the address is non-empty, is a transport
URL, parses, has scheme "udp" and a host part that splits as host:port, and the URL it
returns is the parsed one (scheme "udp", host part splitting); for the empty address,
an address without transport prefix, an address that does not parse, a scheme other
than udp, or a host part that does not split, it returns an error and no URL, and
`StartLogging` returns that error. -/
theorem parseAddress_accepts_exactly_udp_host_port (h : Host) (address : String) :
    (∀ u, parseAddress h address = .ok u ↔
      address ≠ "" ∧ h.isTransportURL address = true ∧ h.urlParse address = .ok u ∧
        u.Scheme = "udp" ∧ ∃ hp, h.splitHostPort u.Host = .ok hp) ∧
    (address = "" → ∃ e, parseAddress h address = .error e) ∧
    (h.isTransportURL address = false → ∃ e, parseAddress h address = .error e) ∧
    (∀ c, h.urlParse address = .error c → ∃ e, parseAddress h address = .error e) ∧
    (∀ u, h.urlParse address = .ok u → u.Scheme ≠ "udp" →
      ∃ e, parseAddress h address = .error e) ∧
    (∀ u c, h.urlParse address = .ok u → h.splitHostPort u.Host = .error c →
      ∃ e, parseAddress h address = .error e) ∧
    (∀ d file logCtx f e, file ∉ d.logs → h.openFifo file = .ok f →
      configGet logCtx.Config "gelf-address" = address →
      parseAddress h address = .error e →
      (StartLogging h d file logCtx).1 = .error e ∧ (StartLogging h d file logCtx).2.1 = d) := by
  refine ⟨parseAddress_ok_iff h address, ?_, ?_, ?_, ?_, ?_, ?_⟩
  · intro h0
    refine parseAddress_error_of_not_ok h address fun u hu => ?_
    exact ((parseAddress_ok_iff h address u).mp hu).1 h0
  · intro h1
    refine parseAddress_error_of_not_ok h address fun u hu => ?_
    have := ((parseAddress_ok_iff h address u).mp hu).2.1
    rw [h1] at this
    cases this
  · intro c h2
    refine parseAddress_error_of_not_ok h address fun u hu => ?_
    have := ((parseAddress_ok_iff h address u).mp hu).2.2.1
    rw [h2] at this
    cases this
  · intro u h2 h3
    refine parseAddress_error_of_not_ok h address fun u' hu => ?_
    obtain ⟨-, -, h2', h3', -⟩ := (parseAddress_ok_iff h address u').mp hu
    rw [h2] at h2'
    cases h2'
    exact h3 h3'
  · intro u c h2 h4
    refine parseAddress_error_of_not_ok h address fun u' hu => ?_
    obtain ⟨-, -, h2', -, hp, h4'⟩ := (parseAddress_ok_iff h address u').mp hu
    rw [h2] at h2'
    cases h2'
    rw [h4] at h4'
    cases h4'
  · intro d file logCtx f e hnew hopen hcfg hp
    rw [← hcfg] at hp
    rw [StartLogging_parseAddress_error h d file logCtx f e hnew hopen hp]
    exact ⟨rfl, rfl⟩

/-- Witness of C5: `udp://127.0.0.1:9999` is accepted, `tcp://127.0.0.1:9999` and the
empty address are refused. -/
theorem parseAddress_accepts_exactly_udp_host_port_witness :
    parseAddress exampleHost "udp://127.0.0.1:9999" =
      .ok { Scheme := "udp", Host := "127.0.0.1:9999" } ∧
    (∃ e, parseAddress exampleHost "tcp://127.0.0.1:9999" = .error e) ∧
    (∃ e, parseAddress exampleHost "" = .error e) :=
  ⟨((parseAddress_accepts_exactly_udp_host_port exampleHost "udp://127.0.0.1:9999").1 _).mpr
      ⟨by decide, rfl, rfl, rfl, _, rfl⟩,
    (parseAddress_accepts_exactly_udp_host_port exampleHost "tcp://127.0.0.1:9999").2.2.2.2.1
      { Scheme := "tcp", Host := "127.0.0.1:9999" } rfl (by decide),
    (parseAddress_accepts_exactly_udp_host_port exampleHost "").2.1 rfl⟩

/-- C6: when `file` is already registered, `StartLogging` returns the "already exists"
error, the registry afterwards is the registry before (same identifiers, same
sessions), and no call is made on the outside world: no stream is opened, no writer
is built, nothing is closed, no loop is started. -/
theorem start_on_registered_id_is_refused (h : Host) (d : driver) (file : String)
    (logCtx : Info) (hreg : file ∈ d.logs) :
    StartLogging h d file logCtx = (.error (.alreadyExists file), d, []) := by
  have hl : (d.logs.lookup file).isSome = true := AList.lookup_isSome.mpr hreg
  unfold StartLogging
  rw [if_pos hl]

/-- Witness of C6: a second start of `c1`. -/
theorem start_on_registered_id_is_refused_witness :
    "c1" ∈ exampleDriver.logs ∧
    StartLogging exampleHost exampleDriver "c1" exampleInfo =
      (.error (.alreadyExists "c1"), exampleDriver, []) :=
  ⟨by decide, start_on_registered_id_is_refused exampleHost exampleDriver "c1" exampleInfo
    (by decide)⟩

/-- C7: `StopLogging` returns nil for every identifier and registry.  For an identifier
that is not registered the registry is unchanged and nothing is closed.  For a
registered one the only call made is the close of that session's stream, the identifier
is no longer registered, and every other identifier is mapped as before. -/
theorem stop_always_succeeds_and_touches_only_its_session (d : driver) (file : String) :
    (StopLogging d file).1 = none ∧
    (file ∉ d.logs → StopLogging d file = (none, d, [])) ∧
    (∀ lf, d.logs.lookup file = some lf →
      (StopLogging d file).2.2 = [.closeStream lf.stream] ∧
      file ∉ (StopLogging d file).2.1.logs ∧
      ∀ k, k ≠ file → (StopLogging d file).2.1.logs.lookup k = d.logs.lookup k) := by
  unfold StopLogging
  cases hl : d.logs.lookup file with
  | none =>
    refine ⟨rfl, fun _ => rfl, ?_⟩
    intro lf hlf
    cases hlf
  | some lf =>
    refine ⟨rfl, ?_, ?_⟩
    · intro hn
      rw [AList.lookup_eq_none.mpr hn] at hl
      cases hl
    · intro lf' hlf'
      cases hlf'
      refine ⟨rfl, ?_, ?_⟩
      · simp [AList.mem_erase]
      · intro k hk
        exact AList.lookup_erase_ne hk

/-- Witness of C7: stopping `c1` in the example registry and stopping the unknown `c2`. -/
theorem stop_always_succeeds_and_touches_only_its_session_witness :
    exampleDriver.logs.lookup "c1" = some exampleSession ∧
    (StopLogging exampleDriver "c1").2.2 = [.closeStream 3] ∧
    "c2" ∉ exampleDriver.logs ∧
    StopLogging exampleDriver "c2" = (none, exampleDriver, []) :=
  ⟨rfl,
    ((stop_always_succeeds_and_touches_only_its_session exampleDriver "c1").2.2
      exampleSession rfl).1,
    by decide,
    (stop_always_succeeds_and_touches_only_its_session exampleDriver "c2").2.1 (by decide)⟩

theorem newGELFUDPWriter_events (h : Host) (address : String) (info : Info) :
    (newGELFUDPWriter h address info).2 = [] ∨
      (newGELFUDPWriter h address info).2 = [.newWriter address] := by
  unfold newGELFUDPWriter
  cases h.newWriter address with
  | error err => exact Or.inl rfl
  | ok gelfWriter =>
    right
    dsimp only
    split
    · rfl
    · split
      · rfl
      · split <;> rfl

theorem StartLogging_outcomes (h : Host) (d : driver) (file : String) (logCtx : Info)
    (f : Stream) (hnew : file ∉ d.logs) (hopen : h.openFifo file = .ok f) :
    (StartLogging h d file logCtx).1 = .ok () ∨
    (∃ e, StartLogging h d file logCtx = (.error e, d, [.openFifo file f])) ∨
    (∃ e a, StartLogging h d file logCtx = (.error e, d, [.openFifo file f, .newWriter a])) := by
  have hl : (d.logs.lookup file).isSome = false := by
    rw [Bool.eq_false_iff, ne_eq, AList.lookup_isSome]
    exact hnew
  unfold StartLogging
  simp only [hl, Bool.false_eq_true, if_false, hopen]
  cases parseAddress h (configGet logCtx.Config "gelf-address") with
  | error e => exact Or.inr (Or.inl ⟨e, rfl⟩)
  | ok graylogAddr =>
    cases h.parseLogTag logCtx with
    | error e => exact Or.inr (Or.inl ⟨_, rfl⟩)
    | ok tag =>
      cases h.hostname logCtx with
      | error e => exact Or.inr (Or.inl ⟨_, rfl⟩)
      | ok hostname =>
        dsimp only
        by_cases hs : graylogAddr.Scheme = "udp"
        · simp only [hs, if_true]
          have hev := newGELFUDPWriter_events h graylogAddr.Host logCtx
          rcases hres : newGELFUDPWriter h graylogAddr.Host logCtx with ⟨res, ev⟩
          rw [hres] at hev
          cases res with
          | error e =>
            rcases hev with hev | hev
            · dsimp only at hev
              subst hev
              exact Or.inr (Or.inl ⟨e, rfl⟩)
            · dsimp only at hev
              subst hev
              exact Or.inr (Or.inr ⟨e, _, rfl⟩)
          | ok gw => exact Or.inl rfl
        · rw [if_neg hs]
          exact Or.inl rfl

/-- C8 (counterexample): with no `gelf-address` option `StartLogging` opens the fifo of
`c1` as stream 3 and returns the "required parameter" error with that stream still
open; with compression type `lz4` it also builds the writer and returns the error
with both left open.  No error path of `StartLogging` closes anything. -/
theorem failed_start_leaves_stream_open :
    StartLogging exampleHost newDriver "c1" noAddressInfo =
      (.error .addressRequired, newDriver, [.openFifo "c1" 3]) ∧
    StartLogging exampleHost newDriver "c1" badCompressionInfo =
      (.error (.compressionType "lz4"), newDriver,
        [.openFifo "c1" 3, .newWriter "127.0.0.1:9999"]) :=
  ⟨rfl, rfl⟩

/-- C8 (amended): whenever `StartLogging` returns an error after it has opened the input
stream, no session is registered (the registry is unchanged) and no loop is started,
and the calls made are the opening of the stream, followed at most by the building of
the writer: the opened stream is not closed, nor is a writer that was built. -/
theorem failed_start_registers_nothing_and_closes_nothing (h : Host) (d : driver)
    (file : String) (logCtx : Info) (f : Stream) (e : StartError) (hnew : file ∉ d.logs)
    (hopen : h.openFifo file = .ok f)
    (herr : (StartLogging h d file logCtx).1 = .error e) :
    (StartLogging h d file logCtx).2.1 = d ∧
    ((StartLogging h d file logCtx).2.2 = [.openFifo file f] ∨
      ∃ a, (StartLogging h d file logCtx).2.2 = [.openFifo file f, .newWriter a]) ∧
    (∀ g, SEvent.closeStream g ∉ (StartLogging h d file logCtx).2.2) ∧
    (∀ lf, SEvent.go lf ∉ (StartLogging h d file logCtx).2.2) := by
  rcases StartLogging_outcomes h d file logCtx f hnew hopen with hok | ⟨e', he⟩ | ⟨e', a, he⟩
  · rw [hok] at herr
    cases herr
  · rw [he]
    exact ⟨rfl, Or.inl rfl, by simp, by simp⟩
  · rw [he]
    exact ⟨rfl, Or.inr ⟨a, rfl⟩, by simp, by simp⟩

/-- Witness of C8 (amended): the start of `c1` with no `gelf-address` option. -/
theorem failed_start_registers_nothing_and_closes_nothing_witness :
    "c1" ∉ newDriver.logs ∧ exampleHost.openFifo "c1" = .ok 3 ∧
    (StartLogging exampleHost newDriver "c1" noAddressInfo).1 = .error .addressRequired ∧
    (StartLogging exampleHost newDriver "c1" noAddressInfo).2.1 = newDriver ∧
    ∀ g, SEvent.closeStream g ∉ (StartLogging exampleHost newDriver "c1" noAddressInfo).2.2 :=
  have h := failed_start_registers_nothing_and_closes_nothing exampleHost newDriver "c1"
    noAddressInfo 3 .addressRequired (by decide) rfl rfl
  ⟨by decide, rfl, rfl, h.1, h.2.2.1⟩

end GraylogDriver
